import Mathlib

/-
Shallow embedding of src/assessor-cli.py: a CLI tool that validates a region,
collects networking resources through nine list calls against a cloud API,
and persists each key of the resulting record to a JSON file.

Python effects are modelled by a state-plus-exception monad over a World that
records the filesystem, the set of directories, the console output, and the
trace of API calls issued.  The external API client is a parameter: a pure
function from calls to responses.
-/

/-- Model of a Python JSON value (the shape of API responses). -/
inductive Json where
  | null : Json
  | bool : Bool → Json
  | num : Int → Json
  | str : String → Json
  | arr : List Json → Json
  | obj : List (String × Json) → Json

/-- Python dict lookup on an association list (dict keys are unique in
Python, so first-match lookup is faithful). -/
def dictGet : List (String × Json) → String → Option Json
  | [], _ => none
  | (k, v) :: rest, key => if k = key then some v else dictGet rest key

mutual

/-- Models json.dumps with indent=2 from the Python standard library
(whitespace and string escaping are abstracted; the serializer is a pure,
deterministic function of the value, which is all the program relies on). -/
def Json.dumps : Json → String
  | Json.null => "null"
  | Json.bool b => cond b "true" "false"
  | Json.num n => toString n
  | Json.str s => "\x22" ++ s ++ "\x22"
  | Json.arr xs => "[" ++ String.intercalate ", " (Json.dumpsArr xs) ++ "]"
  | Json.obj fs => "\x7b" ++ String.intercalate ", " (Json.dumpsObj fs) ++ "\x7d"

/-- Serialize the elements of a JSON array. -/
def Json.dumpsArr : List Json → List String
  | [] => []
  | x :: xs => Json.dumps x :: Json.dumpsArr xs

/-- Serialize the fields of a JSON object. -/
def Json.dumpsObj : List (String × Json) → List String
  | [] => []
  | (k, v) :: fs => ("\x22" ++ k ++ "\x22: " ++ Json.dumps v) :: Json.dumpsObj fs

end

/-- One call against the Compute Engine API, as issued by the program.  Each
constructor records exactly the scoping arguments the source passes:
project-only for global resources, project and region for regional ones. -/
inductive ApiCall where
  | regionsList (project : String)
  | networksList (project : String)
  | subnetworksList (project region : String)
  | routesList (project : String)
  | interconnectsList (project : String)
  | regionBackendServicesList (project region : String)
  | vpnGatewaysList (project region : String)
  | externalVpnGatewaysList (project : String)
  | vpnTunnelsList (project region : String)
  | routersList (project region : String)
deriving DecidableEq, Repr

/-- The API client: a pure map from a call to its response, or to an error
message (network failure, permission denied, ...). -/
def Service : Type := ApiCall → Except String Json

/-- Reasons the Python process stops abnormally: sys.exit(code), or an
uncaught exception (KeyError, TypeError, API client error). -/
inductive Halt where
  | exitCode (code : Nat)
  | exc (msg : String)
deriving DecidableEq, Repr

/-- The observable state of a run: files with their contents, existing
directories, console lines, and the trace of API calls issued so far. -/
structure World where
  fs : List (String × String)
  dirs : List String
  stdout : List String
  calls : List ApiCall
deriving DecidableEq, Repr

/-- The effect monad of the embedding: state over World, with abnormal
termination.  The final World is kept even on abnormal termination, so that
claims about what was written before an exit can be stated. -/
def PyM (α : Type) : Type := World → Except Halt α × World

instance : Monad PyM where
  pure a := fun w => (Except.ok a, w)
  bind m f := fun w =>
    match m w with
    | (Except.ok a, w') => f a w'
    | (Except.error e, w') => (Except.error e, w')

/-- Lift a pure fallible computation into the monad (no state change). -/
def liftE {α : Type} (e : Except Halt α) : PyM α := fun w => (e, w)

/-- Python print(...): appends one line to the console. -/
def printLine (s : String) : PyM Unit :=
  fun w => (Except.ok (), { w with stdout := w.stdout ++ [s] })

/-- Python sys.exit(code): terminates the process. -/
def sysExit {α : Type} (code : Nat) : PyM α :=
  fun w => (Except.error (Halt.exitCode code), w)

/-- Association-list file lookup for the modelled filesystem. -/
def lookupFile : List (String × String) → String → Option String
  | [], _ => none
  | (q, c) :: rest, p => if q = p then some c else lookupFile rest p

/-- Overwrite-or-append semantics of opening a file for writing. -/
def setFile : List (String × String) → String → String → List (String × String)
  | [], p, s => [(p, s)]
  | (q, c) :: rest, p, s =>
      if q = p then (p, s) :: rest else (q, c) :: setFile rest p s

/-- Python os.path.exists on the modelled filesystem (true for a file or a
directory of that name). -/
def pathExistsB (w : World) (p : String) : Bool :=
  (lookupFile w.fs p).isSome || decide (p ∈ w.dirs)

/-- Monadic wrapper for os.path.exists. -/
def pathExists (p : String) : PyM Bool :=
  fun w => (Except.ok (pathExistsB w p), w)

/-- Python os.makedirs: records the directory as existing. -/
def makedirs (p : String) : PyM Unit :=
  fun w => (Except.ok (), { w with dirs := w.dirs ++ [p] })

/-- Python open(path, 'w') followed by a full write of the given content. -/
def writeFile (p s : String) : PyM Unit :=
  fun w => (Except.ok (), { w with fs := setFile w.fs p s })

/-- Record one API call in the trace. -/
def addCall (w : World) (c : ApiCall) : World :=
  { w with calls := w.calls ++ [c] }

/-- Issue one list call (the .execute() points of the source): the call is
recorded in the trace, and a client error becomes an uncaught exception. -/
def apiCall (service : Service) (c : ApiCall) : PyM Json :=
  fun w =>
    match service c with
    | Except.ok j => (Except.ok j, addCall w c)
    | Except.error e => (Except.error (Halt.exc e), addCall w c)

/-- A Python for-loop over a list with a monadic body. -/
def forPy {α : Type} : List α → (α → PyM Unit) → PyM Unit
  | [], _ => pure ()
  | a :: as, f => do
      f a
      forPy as f

/-- Python subscript obj[key]: KeyError when the key is missing, TypeError
when the value is not a dict. -/
def getItemE (j : Json) (k : String) : Except Halt Json :=
  match j with
  | Json.obj fields =>
      match dictGet fields k with
      | some v => Except.ok v
      | none => Except.error (Halt.exc ("KeyError: " ++ k))
  | _ => Except.error (Halt.exc "TypeError: not subscriptable")

/-- The scan loop of check_region (source lines 22-26): iterate over the
items, return True on the first entry whose name equals the requested
region, False when the loop finishes.  A non-string name simply fails the
equality test, as in Python. -/
def checkRegionLoop : List Json → String → Except Halt Bool
  | [], _ => Except.ok false
  | item :: rest, region =>
      match getItemE item "name" with
      | Except.error e => Except.error e
      | Except.ok (Json.str s) =>
          if s = region then Except.ok true else checkRegionLoop rest region
      | Except.ok _ => checkRegionLoop rest region

/-- The pure part of check_region applied to the region-listing response:
subscript by 'items' and scan.  Iterating a non-list raises. -/
def regionScan (resp : Json) (region : String) : Except Halt Bool :=
  match getItemE resp "items" with
  | Except.error e => Except.error e
  | Except.ok (Json.arr xs) => checkRegionLoop xs region
  | Except.ok _ => Except.error (Halt.exc "TypeError: not iterable")

/-- check_region (source lines 17-26): one regions().list(project) call,
then a linear scan of the single returned page. -/
def check_region (service : Service) (project_id region : String) : PyM Bool := do
  let available_regions ← apiCall service (ApiCall.regionsList project_id)
  liftE (regionScan available_regions region)

/-- get_network_info (source lines 29-72): nine sequential list calls, then
the NetworkInfo record, an insertion-ordered dict modelled as an ordered
association list. -/
def get_network_info (service : Service) (project_id region : String) :
    PyM (List (String × Json)) := do
  let vpcs ← apiCall service (ApiCall.networksList project_id)
  let subnetworks ← apiCall service (ApiCall.subnetworksList project_id region)
  let routes ← apiCall service (ApiCall.routesList project_id)
  let interconnects ← apiCall service (ApiCall.interconnectsList project_id)
  let lan_interfaces ← apiCall service (ApiCall.regionBackendServicesList project_id region)
  let vpn_gateways ← apiCall service (ApiCall.vpnGatewaysList project_id region)
  let external_gateways ← apiCall service (ApiCall.externalVpnGatewaysList project_id)
  let vpn_tunnels ← apiCall service (ApiCall.vpnTunnelsList project_id region)
  let routers ← apiCall service (ApiCall.routersList project_id region)
  pure [("project", Json.str project_id), ("region", Json.str region),
        ("vpcs", vpcs), ("subnetworks", subnetworks), ("routes", routes),
        ("interconnects", interconnects), ("lan_interfaces", lan_interfaces),
        ("vpn_gateways", vpn_gateways), ("external_gateways", external_gateways),
        ("vpn_tunnels", vpn_tunnels), ("routers", routers)]

/-- The literal output directory of the source (line 75). -/
def output_directory : String := "output"

/-- The output path os.path.join(output_directory, project + "_" + region +
"_" + object_type + ".json") of source line 114. -/
def outputFile (project_id region object_type : String) : String :=
  output_directory ++ "/" ++ project_id ++ "_" ++ region ++ "_" ++ object_type ++ ".json"

/-- Body of the verbose loop (source lines 103-106): key, pretty value,
delimiter. -/
def verboseStep (kv : String × Json) : PyM Unit := do
  printLine (kv.1 ++ ":")
  printLine (Json.dumps kv.2)
  printLine "-----"

/-- Body of the persistence loop (source lines 113-119): write the value to
its file only when the file does not already exist, otherwise print a
notice. -/
def persistStep (project_id region : String) (kv : String × Json) : PyM Unit := do
  let output_file := outputFile project_id region kv.1
  let fileExists ← pathExists output_file
  if !fileExists then
    writeFile output_file (Json.dumps kv.2)
  else
    printLine ("File " ++ output_file ++ " already exists.")

/-- The body of the nested pair loop of main (source lines 93-119): region
validation, collection, optional verbose dump, directory creation,
persistence. -/
def pairBody (service : Service) (verbose : Bool) (project_id region : String) :
    PyM Unit := do
  let valid ← check_region service project_id region
  if !valid then
    printLine ("The region " ++ region ++ " is not valid.")
    (sysExit 1 : PyM Unit)
  let network_info ← get_network_info service project_id region
  if verbose then
    forPy network_info verboseStep
  let dirExists ← pathExists output_directory
  if !dirExists then
    makedirs output_directory
  forPy network_info (persistStep project_id region)

/-- Helper for pySplitComma: accumulate the current token in reverse. -/
def pySplitCommaAux : List Char → List Char → List String
  | [], acc => [String.mk acc.reverse]
  | c :: cs, acc =>
      if c = ',' then String.mk acc.reverse :: pySplitCommaAux cs []
      else pySplitCommaAux cs (c :: acc)

/-- Models Python str.split(",") (source lines 85-86): split on every comma,
keeping empty tokens, with no trimming. -/
def pySplitComma (s : String) : List String :=
  pySplitCommaAux s.data []

/-- The parsed command-line arguments of the program (argparse, source lines
78-82): both list arguments are required, verbose is a flag. -/
structure Args where
  project : String
  region : String
  verbose : Bool

/-- main of the source (lines 74-119; the name main is reserved in Lean): split the two comma-separated arguments and
run the pair body over the cartesian product, projects outermost. -/
def main' (service : Service) (args : Args) : PyM Unit := do
  let project_ids := pySplitComma args.project
  let regions := pySplitComma args.region
  forPy project_ids (fun project_id =>
    forPy regions (fun region =>
      pairBody service args.verbose project_id region))

/-- The eleven keys of the NetworkInfo record, in insertion order: project,
region, and the nine resource keys. -/
def niKeys : List String :=
  ["project", "region", "vpcs", "subnetworks", "routes", "interconnects",
   "lan_interfaces", "vpn_gateways", "external_gateways", "vpn_tunnels", "routers"]

/-- The nine list calls of get_network_info, in issue order. -/
def nineCalls (p r : String) : List ApiCall :=
  [ApiCall.networksList p, ApiCall.subnetworksList p r, ApiCall.routesList p,
   ApiCall.interconnectsList p, ApiCall.regionBackendServicesList p r,
   ApiCall.vpnGatewaysList p r, ApiCall.externalVpnGatewaysList p,
   ApiCall.vpnTunnelsList p r, ApiCall.routersList p r]

/-- The console block produced by the verbose loop for a record. -/
def vBlock (kvs : List (String × Json)) : List String :=
  kvs.flatMap (fun kv => [kv.1 ++ ":", Json.dumps kv.2, "-----"])

/-! ### Run lemmas for the effect monad -/

theorem run_pure {α : Type} (a : α) (w : World) :
    (pure a : PyM α) w = (Except.ok a, w) := rfl

theorem run_bind {α β : Type} (m : PyM α) (f : α → PyM β) (w : World) :
    (m >>= f) w =
      match m w with
      | (Except.ok a, w') => f a w'
      | (Except.error e, w') => (Except.error e, w') := rfl

theorem run_bind_ok {α β : Type} {m : PyM α} {f : α → PyM β} {w w' : World}
    {a : α} (h : m w = (Except.ok a, w')) : (m >>= f) w = f a w' := by
  rw [run_bind, h]

theorem run_bind_err {α β : Type} {m : PyM α} {f : α → PyM β} {w w' : World}
    {e : Halt} (h : m w = (Except.error e, w')) :
    (m >>= f) w = (Except.error e, w') := by
  rw [run_bind, h]

theorem run_bind_inv {α β : Type} {m : PyM α} {f : α → PyM β} {w w' : World}
    {res : Except Halt β} (h : (m >>= f) w = (res, w')) :
    (∃ a w₁, m w = (Except.ok a, w₁) ∧ f a w₁ = (res, w')) ∨
    (∃ e, m w = (Except.error e, w') ∧ res = Except.error e) := by
  rw [run_bind] at h
  cases hm : m w with
  | mk r wm =>
    cases r with
    | ok a =>
      left
      refine ⟨a, wm, rfl, ?_⟩
      rw [hm] at h
      exact h
    | error e =>
      right
      rw [hm] at h
      injection h with h1 h2
      exact ⟨e, by rw [h2], h1.symm⟩

theorem forPy_nil {α : Type} (f : α → PyM Unit) : forPy [] f = (pure () : PyM Unit) := rfl

theorem forPy_cons_ok {α : Type} {a : α} {as : List α} {f : α → PyM Unit}
    {w w₁ : World} {u : Unit} (h : f a w = (Except.ok u, w₁)) :
    forPy (a :: as) f w = forPy as f w₁ := by
  show (f a >>= fun _ => forPy as f) w = _
  exact run_bind_ok h

theorem forPy_cons_err {α : Type} {a : α} {as : List α} {f : α → PyM Unit}
    {w w₁ : World} {e : Halt} (h : f a w = (Except.error e, w₁)) :
    forPy (a :: as) f w = (Except.error e, w₁) := by
  show (f a >>= fun _ => forPy as f) w = _
  exact run_bind_err h

theorem forPy_inv {α : Type} (Inv : World → Prop) (l : List α) (f : α → PyM Unit)
    (hf : ∀ a w, Inv w → Inv (f a w).2) :
    ∀ w, Inv w → Inv ((forPy l f) w).2 := by
  induction l with
  | nil => intro w hw; exact hw
  | cons a as ih =>
    intro w hw
    cases hfa : f a w with
    | mk r w₁ =>
      have h₁ : Inv w₁ := by have := hf a w hw; rw [hfa] at this; exact this
      cases r with
      | ok u => rw [forPy_cons_ok hfa]; exact ih w₁ h₁
      | error e => rw [forPy_cons_err hfa]; exact h₁

/-! ### Effect characterizations of the program pieces -/

theorem addCall_fs (w : World) (c : ApiCall) : (addCall w c).fs = w.fs := rfl

theorem addCall_dirs (w : World) (c : ApiCall) : (addCall w c).dirs = w.dirs := rfl

theorem addCall_stdout (w : World) (c : ApiCall) : (addCall w c).stdout = w.stdout := rfl

theorem addCall_calls (w : World) (c : ApiCall) :
    (addCall w c).calls = w.calls ++ [c] := rfl

theorem run_apiCall_ok {s : Service} {c : ApiCall} {j : Json}
    (h : s c = Except.ok j) (w : World) :
    apiCall s c w = (Except.ok j, addCall w c) := by
  show (match s c with
        | Except.ok j => (Except.ok j, addCall w c)
        | Except.error e => (Except.error (Halt.exc e), addCall w c)) = _
  rw [h]

theorem run_apiCall_err {s : Service} {c : ApiCall} {e : String}
    (h : s c = Except.error e) (w : World) :
    apiCall s c w = (Except.error (Halt.exc e), addCall w c) := by
  show (match s c with
        | Except.ok j => (Except.ok j, addCall w c)
        | Except.error e => (Except.error (Halt.exc e), addCall w c)) = _
  rw [h]

theorem check_region_run (s : Service) (p r : String) (w : World) :
    check_region s p r w =
      ((match s (ApiCall.regionsList p) with
        | Except.ok j => regionScan j r
        | Except.error e => Except.error (Halt.exc e)),
       addCall w (ApiCall.regionsList p)) := by
  show (apiCall s (ApiCall.regionsList p) >>= fun j => liftE (regionScan j r)) w = _
  cases h : s (ApiCall.regionsList p) with
  | ok j => rw [run_bind_ok (run_apiCall_ok h w)]; rfl
  | error e => rw [run_bind_err (run_apiCall_err h w)]

theorem check_region_world {s : Service} {p r : String} {w w' : World}
    {res : Except Halt Bool} (h : check_region s p r w = (res, w')) :
    w' = addCall w (ApiCall.regionsList p) := by
  rw [check_region_run] at h
  injection h with h1 h2
  exact h2.symm

theorem apiCall_snd (s : Service) (c : ApiCall) (w : World) :
    (apiCall s c w).2 = addCall w c := by
  show ((match s c with
        | Except.ok j => (Except.ok j, addCall w c)
        | Except.error e => (Except.error (Halt.exc e), addCall w c)).2) = addCall w c
  cases s c <;> rfl

theorem bind_apiCall_ok {s : Service} {c : ApiCall} {j : Json}
    (h : s c = Except.ok j) {β : Type} (k : Json → PyM β) (w : World) :
    (apiCall s c >>= k) w = k j (addCall w c) :=
  run_bind_ok (run_apiCall_ok h w)

theorem bind_apiCall_err {s : Service} {c : ApiCall} {e : String}
    (h : s c = Except.error e) {β : Type} (k : Json → PyM β) (w : World) :
    (apiCall s c >>= k) w = (Except.error (Halt.exc e), addCall w c) :=
  run_bind_err (run_apiCall_err h w)

/-- Inversion for the resource collector: whatever the outcome, the
filesystem, directories and console are untouched; on success the record has
exactly the eleven keys in order and the trace grew by the nine list calls. -/
theorem gni_cases {s : Service} {p r : String} {w w' : World}
    {res : Except Halt (List (String × Json))}
    (h : get_network_info s p r w = (res, w')) :
    (w'.fs = w.fs ∧ w'.dirs = w.dirs ∧ w'.stdout = w.stdout) ∧
    (∀ info, res = Except.ok info →
      info.map Prod.fst = niKeys ∧
      w'.calls = w.calls ++ nineCalls p r) := by
  unfold get_network_info at h
  cases h1 : s (ApiCall.networksList p) with
  | error e =>
    rw [bind_apiCall_err h1] at h
    injection h with hres hw
    subst hw
    refine ⟨⟨by simp only [addCall_fs], by simp only [addCall_dirs],
      by simp only [addCall_stdout]⟩,
      fun info hinfo => Except.noConfusion (hres.trans hinfo)⟩
  | ok v1 =>
    rw [bind_apiCall_ok h1] at h
    cases h2 : s (ApiCall.subnetworksList p r) with
    | error e =>
      rw [bind_apiCall_err h2] at h
      injection h with hres hw
      subst hw
      refine ⟨⟨by simp only [addCall_fs], by simp only [addCall_dirs],
        by simp only [addCall_stdout]⟩,
        fun info hinfo => Except.noConfusion (hres.trans hinfo)⟩
    | ok v2 =>
      rw [bind_apiCall_ok h2] at h
      cases h3 : s (ApiCall.routesList p) with
      | error e =>
        rw [bind_apiCall_err h3] at h
        injection h with hres hw
        subst hw
        refine ⟨⟨by simp only [addCall_fs], by simp only [addCall_dirs],
          by simp only [addCall_stdout]⟩,
          fun info hinfo => Except.noConfusion (hres.trans hinfo)⟩
      | ok v3 =>
        rw [bind_apiCall_ok h3] at h
        cases h4 : s (ApiCall.interconnectsList p) with
        | error e =>
          rw [bind_apiCall_err h4] at h
          injection h with hres hw
          subst hw
          refine ⟨⟨by simp only [addCall_fs], by simp only [addCall_dirs],
            by simp only [addCall_stdout]⟩,
            fun info hinfo => Except.noConfusion (hres.trans hinfo)⟩
        | ok v4 =>
          rw [bind_apiCall_ok h4] at h
          cases h5 : s (ApiCall.regionBackendServicesList p r) with
          | error e =>
            rw [bind_apiCall_err h5] at h
            injection h with hres hw
            subst hw
            refine ⟨⟨by simp only [addCall_fs], by simp only [addCall_dirs],
              by simp only [addCall_stdout]⟩,
              fun info hinfo => Except.noConfusion (hres.trans hinfo)⟩
          | ok v5 =>
            rw [bind_apiCall_ok h5] at h
            cases h6 : s (ApiCall.vpnGatewaysList p r) with
            | error e =>
              rw [bind_apiCall_err h6] at h
              injection h with hres hw
              subst hw
              refine ⟨⟨by simp only [addCall_fs], by simp only [addCall_dirs],
                by simp only [addCall_stdout]⟩,
                fun info hinfo => Except.noConfusion (hres.trans hinfo)⟩
            | ok v6 =>
              rw [bind_apiCall_ok h6] at h
              cases h7 : s (ApiCall.externalVpnGatewaysList p) with
              | error e =>
                rw [bind_apiCall_err h7] at h
                injection h with hres hw
                subst hw
                refine ⟨⟨by simp only [addCall_fs], by simp only [addCall_dirs],
                  by simp only [addCall_stdout]⟩,
                  fun info hinfo => Except.noConfusion (hres.trans hinfo)⟩
              | ok v7 =>
                rw [bind_apiCall_ok h7] at h
                cases h8 : s (ApiCall.vpnTunnelsList p r) with
                | error e =>
                  rw [bind_apiCall_err h8] at h
                  injection h with hres hw
                  subst hw
                  refine ⟨⟨by simp only [addCall_fs], by simp only [addCall_dirs],
                    by simp only [addCall_stdout]⟩,
                    fun info hinfo => Except.noConfusion (hres.trans hinfo)⟩
                | ok v8 =>
                  rw [bind_apiCall_ok h8] at h
                  cases h9 : s (ApiCall.routersList p r) with
                  | error e =>
                    rw [bind_apiCall_err h9] at h
                    injection h with hres hw
                    subst hw
                    refine ⟨⟨by simp only [addCall_fs], by simp only [addCall_dirs],
                      by simp only [addCall_stdout]⟩,
                      fun info hinfo => Except.noConfusion (hres.trans hinfo)⟩
                  | ok v9 =>
                    rw [bind_apiCall_ok h9] at h
                    rw [run_pure] at h
                    injection h with hres hw
                    subst hw
                    refine ⟨⟨by simp only [addCall_fs], by simp only [addCall_dirs],
                      by simp only [addCall_stdout]⟩, fun info hinfo => ?_⟩
                    injection hres.trans hinfo with hrec
                    subst hrec
                    exact ⟨rfl, by simp [addCall_calls, nineCalls]⟩

/-- Forward run of the collector when all nine calls succeed. -/
theorem gni_run_ok {s : Service} {p r : String} {v1 v2 v3 v4 v5 v6 v7 v8 v9 : Json}
    (h1 : s (ApiCall.networksList p) = Except.ok v1)
    (h2 : s (ApiCall.subnetworksList p r) = Except.ok v2)
    (h3 : s (ApiCall.routesList p) = Except.ok v3)
    (h4 : s (ApiCall.interconnectsList p) = Except.ok v4)
    (h5 : s (ApiCall.regionBackendServicesList p r) = Except.ok v5)
    (h6 : s (ApiCall.vpnGatewaysList p r) = Except.ok v6)
    (h7 : s (ApiCall.externalVpnGatewaysList p) = Except.ok v7)
    (h8 : s (ApiCall.vpnTunnelsList p r) = Except.ok v8)
    (h9 : s (ApiCall.routersList p r) = Except.ok v9)
    (w : World) :
    get_network_info s p r w =
      (Except.ok [("project", Json.str p), ("region", Json.str r),
        ("vpcs", v1), ("subnetworks", v2), ("routes", v3),
        ("interconnects", v4), ("lan_interfaces", v5),
        ("vpn_gateways", v6), ("external_gateways", v7),
        ("vpn_tunnels", v8), ("routers", v9)],
       addCall (addCall (addCall (addCall (addCall (addCall (addCall (addCall
         (addCall w (ApiCall.networksList p)) (ApiCall.subnetworksList p r))
         (ApiCall.routesList p)) (ApiCall.interconnectsList p))
         (ApiCall.regionBackendServicesList p r)) (ApiCall.vpnGatewaysList p r))
         (ApiCall.externalVpnGatewaysList p)) (ApiCall.vpnTunnelsList p r))
         (ApiCall.routersList p r)) := by
  unfold get_network_info
  rw [bind_apiCall_ok h1, bind_apiCall_ok h2, bind_apiCall_ok h3,
      bind_apiCall_ok h4, bind_apiCall_ok h5, bind_apiCall_ok h6,
      bind_apiCall_ok h7, bind_apiCall_ok h8, bind_apiCall_ok h9, run_pure]

theorem verboseStep_run (kv : String × Json) (w : World) :
    verboseStep kv w = (Except.ok (),
      { w with stdout := w.stdout ++ [kv.1 ++ ":", Json.dumps kv.2, "-----"] }) := by
  unfold verboseStep
  simp [run_bind, printLine, List.append_assoc]

theorem verbose_loop_run (kvs : List (String × Json)) : ∀ w : World,
    forPy kvs verboseStep w =
      (Except.ok (), { w with stdout := w.stdout ++ vBlock kvs }) := by
  induction kvs with
  | nil =>
    intro w
    show (pure () : PyM Unit) w = _
    simp [run_pure, vBlock]
  | cons kv rest ih =>
    intro w
    rw [forPy_cons_ok (verboseStep_run kv w), ih]
    simp [vBlock, List.append_assoc]

theorem persistStep_skip {project_id region : String} {kv : String × Json} {w : World}
    (hex : pathExistsB w (outputFile project_id region kv.1) = true) :
    persistStep project_id region kv w = (Except.ok (),
      { w with stdout := w.stdout ++
          ["File " ++ outputFile project_id region kv.1 ++ " already exists."] }) := by
  unfold persistStep
  simp [run_bind, pathExists, hex, printLine]

theorem persistStep_write {project_id region : String} {kv : String × Json} {w : World}
    (hex : pathExistsB w (outputFile project_id region kv.1) = false) :
    persistStep project_id region kv w = (Except.ok (),
      { w with fs := setFile w.fs (outputFile project_id region kv.1) (Json.dumps kv.2) }) := by
  unfold persistStep
  simp [run_bind, pathExists, hex, writeFile]

theorem lookupFile_setFile_keep {l : List (String × String)} {p q : String}
    (s : String) (hne : p ≠ q) :
    lookupFile (setFile l p s) q = lookupFile l q := by
  induction l with
  | nil => simp [setFile, lookupFile, hne]
  | cons hd tl ih =>
    obtain ⟨k, v⟩ := hd
    by_cases hk : k = p
    · subst hk
      simp [setFile, lookupFile, hne]
    · simp [setFile, lookupFile, hk, ih]

theorem persistStep_fs_keep (project_id region : String) (kv : String × Json)
    (w : World) {q c : String} (hq : lookupFile w.fs q = some c) :
    lookupFile ((persistStep project_id region kv w).2).fs q = some c := by
  cases hex : pathExistsB w (outputFile project_id region kv.1) with
  | true => rw [persistStep_skip hex]; exact hq
  | false =>
    rw [persistStep_write hex]
    have hnone : lookupFile w.fs (outputFile project_id region kv.1) = none := by
      unfold pathExistsB at hex
      rcases Bool.or_eq_false_iff.mp hex with ⟨h1, _⟩
      exact Option.not_isSome_iff_eq_none.mp (by rw [h1]; exact Bool.false_ne_true)
    have hne : outputFile project_id region kv.1 ≠ q := by
      intro heq
      rw [heq, hq] at hnone
      exact Option.noConfusion hnone
    show lookupFile (setFile w.fs (outputFile project_id region kv.1) (Json.dumps kv.2)) q = some c
    rw [lookupFile_setFile_keep _ hne]
    exact hq

theorem persist_loop_ok (project_id region : String)
    (kvs : List (String × Json)) : ∀ w : World,
    ∃ w' rest, forPy kvs (persistStep project_id region) w = (Except.ok (), w') ∧
      w'.dirs = w.dirs ∧ w'.calls = w.calls ∧
      w'.stdout = w.stdout ++ rest ∧
      ∀ line ∈ rest, ∃ f, line = "File " ++ f ++ " already exists." := by
  induction kvs with
  | nil =>
    intro w
    exact ⟨w, [], rfl, rfl, rfl, by simp, by simp⟩
  | cons kv rest ih =>
    intro w
    cases hex : pathExistsB w (outputFile project_id region kv.1) with
    | true =>
      obtain ⟨w', r', hrun, hd, hc, hs, hr⟩ :=
        ih { w with stdout := w.stdout ++
          ["File " ++ outputFile project_id region kv.1 ++ " already exists."] }
      refine ⟨w', ("File " ++ outputFile project_id region kv.1 ++ " already exists.") :: r',
        ?_, hd, hc, ?_, ?_⟩
      · rw [forPy_cons_ok (persistStep_skip hex)]; exact hrun
      · rw [hs]; simp [List.append_assoc]
      · intro line hline
        rcases List.mem_cons.mp hline with h | h
        · exact ⟨outputFile project_id region kv.1, h⟩
        · exact hr line h
    | false =>
      obtain ⟨w', r', hrun, hd, hc, hs, hr⟩ :=
        ih { w with fs := setFile w.fs (outputFile project_id region kv.1) (Json.dumps kv.2) }
      refine ⟨w', r', ?_, hd, hc, hs, hr⟩
      rw [forPy_cons_ok (persistStep_write hex)]
      exact hrun

theorem lookupFile_append (l₁ l₂ : List (String × String)) (q : String) :
    lookupFile (l₁ ++ l₂) q =
      match lookupFile l₁ q with
      | some c => some c
      | none => lookupFile l₂ q := by
  induction l₁ with
  | nil => simp [lookupFile]
  | cons hd tl ih =>
    obtain ⟨k, v⟩ := hd
    by_cases hk : k = q
    · simp [lookupFile, hk]
    · simp [lookupFile, hk, ih]

theorem setFile_of_none {l : List (String × String)} {p : String}
    (s : String) (hnone : lookupFile l p = none) :
    setFile l p s = l ++ [(p, s)] := by
  induction l with
  | nil => simp [setFile]
  | cons hd tl ih =>
    obtain ⟨k, v⟩ := hd
    by_cases hk : k = p
    · rw [hk] at hnone ⊢
      simp [lookupFile] at hnone
    · simp only [lookupFile, if_neg hk] at hnone
      simp [setFile, hk, ih hnone]

theorem persist_loop_fresh (project_id region : String) (kvs : List (String × Json)) :
    ∀ w : World,
    (∀ kv ∈ kvs, lookupFile w.fs (outputFile project_id region kv.1) = none ∧
      outputFile project_id region kv.1 ∉ w.dirs) →
    (kvs.map fun kv => outputFile project_id region kv.1).Nodup →
    forPy kvs (persistStep project_id region) w =
      (Except.ok (), { w with fs := w.fs ++ kvs.map (fun kv => (outputFile project_id region kv.1, Json.dumps kv.2)) }) := by
  induction kvs with
  | nil =>
    intro w _ _
    show (pure () : PyM Unit) w = _
    simp [run_pure]
  | cons kv rest ih =>
    intro w hfresh hnodup
    rw [List.map_cons] at hnodup
    obtain ⟨hnotin, hnodup'⟩ := List.nodup_cons.mp hnodup
    obtain ⟨hnone, hdirs⟩ := hfresh kv (List.mem_cons_self kv rest)
    have hex : pathExistsB w (outputFile project_id region kv.1) = false := by
      simp [pathExistsB, hnone, hdirs]
    rw [forPy_cons_ok (persistStep_write hex), setFile_of_none _ hnone]
    have hfresh' : ∀ kv' ∈ rest,
        lookupFile ({ w with fs := w.fs ++ [(outputFile project_id region kv.1, Json.dumps kv.2)] } : World).fs
          (outputFile project_id region kv'.1) = none ∧
        outputFile project_id region kv'.1 ∉
          ({ w with fs := w.fs ++ [(outputFile project_id region kv.1, Json.dumps kv.2)] } : World).dirs := by
      intro kv' hkv'
      obtain ⟨hnone', hdirs'⟩ := hfresh kv' (List.mem_cons_of_mem _ hkv')
      have hne : outputFile project_id region kv.1 ≠ outputFile project_id region kv'.1 := by
        intro heq
        exact hnotin (heq ▸ List.mem_map_of_mem _ hkv')
      constructor
      · show lookupFile (w.fs ++ [(outputFile project_id region kv.1, Json.dumps kv.2)])
          (outputFile project_id region kv'.1) = none
        rw [lookupFile_append, hnone']
        simp [lookupFile, hne]
      · exact hdirs'
    rw [ih _ hfresh' hnodup']
    simp [List.append_assoc]

/-- The value computed by check_region, which depends only on the client. -/
def crValue (s : Service) (p r : String) : Except Halt Bool :=
  match s (ApiCall.regionsList p) with
  | Except.ok j => regionScan j r
  | Except.error e => Except.error (Halt.exc e)

theorem check_region_run2 (s : Service) (p r : String) (w : World) :
    check_region s p r w = (crValue s p r, addCall w (ApiCall.regionsList p)) := by
  rw [check_region_run]
  unfold crValue
  cases s (ApiCall.regionsList p) <;> rfl

/-- Complete case analysis of one iteration of the pair loop. -/
theorem pairBody_cases {s : Service} {v : Bool} {p r : String} {w w' : World}
    {out : Except Halt Unit}
    (h : pairBody s v p r w = (out, w')) :
    (∃ e, crValue s p r = Except.error e ∧ out = Except.error e ∧
      w'.fs = w.fs ∧ w'.dirs = w.dirs ∧ w'.stdout = w.stdout ∧
      w'.calls = w.calls ++ [ApiCall.regionsList p]) ∨
    (crValue s p r = Except.ok false ∧ out = Except.error (Halt.exitCode 1) ∧
      w'.fs = w.fs ∧ w'.dirs = w.dirs ∧
      w'.stdout = w.stdout ++ ["The region " ++ r ++ " is not valid."] ∧
      w'.calls = w.calls ++ [ApiCall.regionsList p]) ∨
    (∃ e, crValue s p r = Except.ok true ∧
      get_network_info s p r (addCall w (ApiCall.regionsList p)) = (Except.error e, w') ∧
      out = Except.error e ∧
      w'.fs = w.fs ∧ w'.dirs = w.dirs ∧ w'.stdout = w.stdout) ∨
    (∃ info w₂ w₃ w₄, crValue s p r = Except.ok true ∧
      get_network_info s p r (addCall w (ApiCall.regionsList p)) = (Except.ok info, w₂) ∧
      info.map Prod.fst = niKeys ∧
      w₂.fs = w.fs ∧ w₂.dirs = w.dirs ∧ w₂.stdout = w.stdout ∧
      w₂.calls = w.calls ++ ApiCall.regionsList p :: nineCalls p r ∧
      w₃ = (if v then { w₂ with stdout := w₂.stdout ++ vBlock info } else w₂) ∧
      w₄ = (if pathExistsB w₃ output_directory then w₃ else { w₃ with dirs := w₃.dirs ++ [output_directory] }) ∧
      forPy info (persistStep p r) w₄ = (out, w')) := by
  unfold pairBody at h
  cases hcv : crValue s p r with
  | error e =>
    have hcr : check_region s p r w = (Except.error e, addCall w (ApiCall.regionsList p)) := by
      rw [check_region_run2, hcv]
    rw [run_bind_err hcr] at h
    injection h with h1 h2
    subst h2
    exact Or.inl ⟨e, rfl, h1.symm, addCall_fs .., addCall_dirs .., addCall_stdout .., addCall_calls ..⟩
  | ok b =>
    have hcr : check_region s p r w = (Except.ok b, addCall w (ApiCall.regionsList p)) := by
      rw [check_region_run2, hcv]
    rw [run_bind_ok hcr] at h
    cases b with
    | false =>
      simp only [Bool.not_false, eq_self_iff_true, if_true] at h
      rw [run_bind_ok (show printLine ("The region " ++ r ++ " is not valid.") (addCall w (ApiCall.regionsList p)) = (Except.ok (), { addCall w (ApiCall.regionsList p) with stdout := (addCall w (ApiCall.regionsList p)).stdout ++ ["The region " ++ r ++ " is not valid."] }) from rfl)] at h
      rw [run_bind_err (show (sysExit 1 : PyM Unit) ({ addCall w (ApiCall.regionsList p) with stdout := (addCall w (ApiCall.regionsList p)).stdout ++ ["The region " ++ r ++ " is not valid."] }) = (Except.error (Halt.exitCode 1), { addCall w (ApiCall.regionsList p) with stdout := (addCall w (ApiCall.regionsList p)).stdout ++ ["The region " ++ r ++ " is not valid."] }) from rfl)] at h
      injection h with h1 h2
      subst h2
      refine Or.inr (Or.inl ⟨rfl, h1.symm, ?_, ?_, ?_, ?_⟩)
      · simp [addCall_fs]
      · simp [addCall_dirs]
      · simp [addCall_stdout]
      · simp [addCall_calls]
    | true =>
      simp only [Bool.not_true] at h
      rw [if_neg (by exact Bool.false_ne_true)] at h
      rw [run_bind_ok (run_pure () _)] at h
      cases hg : get_network_info s p r (addCall w (ApiCall.regionsList p)) with
      | mk gres w₂ =>
        cases gres with
        | error e =>
          rw [run_bind_err hg] at h
          injection h with h1 h2
          subst h2
          obtain ⟨⟨hf, hd, hs⟩, _⟩ := gni_cases hg
          exact Or.inr (Or.inr (Or.inl ⟨e, rfl, rfl, h1.symm,
            hf.trans (addCall_fs ..), hd.trans (addCall_dirs ..), hs.trans (addCall_stdout ..)⟩))
        | ok info =>
          rw [run_bind_ok hg] at h
          obtain ⟨⟨hf, hd, hs⟩, hok⟩ := gni_cases hg
          obtain ⟨hkeys, hcalls⟩ := hok info rfl
          have hcalls2 : w₂.calls = w.calls ++ ApiCall.regionsList p :: nineCalls p r := by
            rw [hcalls, addCall_calls, List.append_assoc]
            rfl
          refine Or.inr (Or.inr (Or.inr ?_))
          cases v with
          | true =>
            simp only [eq_self_iff_true, if_true] at h
            rw [run_bind_ok (verbose_loop_run info w₂)] at h
            cases hpe : pathExistsB ({ w₂ with stdout := w₂.stdout ++ vBlock info }) output_directory with
            | true =>
              rw [run_bind_ok (show pathExists output_directory ({ w₂ with stdout := w₂.stdout ++ vBlock info }) = (Except.ok (pathExistsB ({ w₂ with stdout := w₂.stdout ++ vBlock info }) output_directory), ({ w₂ with stdout := w₂.stdout ++ vBlock info } : World)) from rfl)] at h
              rw [hpe] at h
              simp only [Bool.not_true] at h
              rw [if_neg (by exact Bool.false_ne_true)] at h
              rw [run_bind_ok (run_pure () _)] at h
              exact ⟨info, w₂, _, _, rfl, rfl, hkeys,
                hf.trans (addCall_fs ..), hd.trans (addCall_dirs ..), hs.trans (addCall_stdout ..),
                hcalls2, (if_pos rfl).symm, (if_pos hpe).symm, h⟩
            | false =>
              rw [run_bind_ok (show pathExists output_directory ({ w₂ with stdout := w₂.stdout ++ vBlock info }) = (Except.ok (pathExistsB ({ w₂ with stdout := w₂.stdout ++ vBlock info }) output_directory), ({ w₂ with stdout := w₂.stdout ++ vBlock info } : World)) from rfl)] at h
              rw [hpe] at h
              simp only [Bool.not_false, eq_self_iff_true, if_true] at h
              rw [run_bind_ok (show makedirs output_directory ({ w₂ with stdout := w₂.stdout ++ vBlock info }) = (Except.ok (), { ({ w₂ with stdout := w₂.stdout ++ vBlock info } : World) with dirs := ({ w₂ with stdout := w₂.stdout ++ vBlock info } : World).dirs ++ [output_directory] }) from rfl)] at h
              exact ⟨info, w₂, _, _, rfl, rfl, hkeys,
                hf.trans (addCall_fs ..), hd.trans (addCall_dirs ..), hs.trans (addCall_stdout ..),
                hcalls2, (if_pos rfl).symm, (if_neg (fun hc => Bool.false_ne_true (hpe ▸ hc))).symm, h⟩
          | false =>
            rw [if_neg (by exact Bool.false_ne_true)] at h
            rw [run_bind_ok (run_pure () _)] at h
            cases hpe : pathExistsB w₂ output_directory with
            | true =>
              rw [run_bind_ok (show pathExists output_directory w₂ = (Except.ok (pathExistsB w₂ output_directory), w₂) from rfl)] at h
              rw [hpe] at h
              simp only [Bool.not_true] at h
              rw [if_neg (by exact Bool.false_ne_true)] at h
              rw [run_bind_ok (run_pure () _)] at h
              exact ⟨info, w₂, _, _, rfl, rfl, hkeys,
                hf.trans (addCall_fs ..), hd.trans (addCall_dirs ..), hs.trans (addCall_stdout ..),
                hcalls2, (if_neg Bool.false_ne_true).symm, (if_pos hpe).symm, h⟩
            | false =>
              rw [run_bind_ok (show pathExists output_directory w₂ = (Except.ok (pathExistsB w₂ output_directory), w₂) from rfl)] at h
              rw [hpe] at h
              simp only [Bool.not_false, eq_self_iff_true, if_true] at h
              rw [run_bind_ok (show makedirs output_directory w₂ = (Except.ok (), { w₂ with dirs := w₂.dirs ++ [output_directory] }) from rfl)] at h
              exact ⟨info, w₂, _, _, rfl, rfl, hkeys,
                hf.trans (addCall_fs ..), hd.trans (addCall_dirs ..), hs.trans (addCall_stdout ..),
                hcalls2, (if_neg Bool.false_ne_true).symm, (if_neg (fun hc => Bool.false_ne_true (hpe ▸ hc))).symm, h⟩

theorem pairBody_fs_keep (s : Service) (v : Bool) (p r : String) (w : World)
    {q c : String} (hq : lookupFile w.fs q = some c) :
    lookupFile ((pairBody s v p r w).2).fs q = some c := by
  rcases pairBody_cases (show pairBody s v p r w =
      ((pairBody s v p r w).1, (pairBody s v p r w).2) from rfl) with
    ⟨e, _, _, hfs, _⟩ | ⟨_, _, hfs, _⟩ | ⟨e, _, _, _, hfs, _⟩ |
    ⟨info, w₂, w₃, w₄, _, _, _, hfs₂, _, _, _, hw₃, hw₄, hper⟩
  · rw [hfs]; exact hq
  · rw [hfs]; exact hq
  · rw [hfs]; exact hq
  · have hw₃fs : w₃.fs = w₂.fs := by rw [hw₃]; split <;> rfl
    have hw₄fs : w₄.fs = w₃.fs := by rw [hw₄]; split <;> rfl
    have hinv : lookupFile w₄.fs q = some c := by
      rw [hw₄fs, hw₃fs, hfs₂]; exact hq
    have := forPy_inv (fun W => lookupFile W.fs q = some c) info (persistStep p r)
      (fun a W hW => persistStep_fs_keep p r a W hW) w₄ hinv
    rw [congrArg Prod.snd hper] at this
    exact this

theorem main_run (s : Service) (args : Args) (w : World) :
    main' s args w = forPy (pySplitComma args.project)
      (fun project_id => forPy (pySplitComma args.region)
        (fun region => pairBody s args.verbose project_id region)) w := rfl

theorem main_fs_keep (s : Service) (args : Args) (w : World)
    {q c : String} (hq : lookupFile w.fs q = some c) :
    lookupFile ((main' s args w).2).fs q = some c := by
  rw [main_run]
  exact forPy_inv (fun W => lookupFile W.fs q = some c) _ _
    (fun pid W hW => forPy_inv (fun W => lookupFile W.fs q = some c) _ _
      (fun reg W' hW' => pairBody_fs_keep s args.verbose pid reg W' hW') W hW) w hq

theorem pairBody_err_frame {s : Service} {v : Bool} {p r : String} {w w' : World}
    {e : Halt} (h : pairBody s v p r w = (Except.error e, w')) :
    w'.fs = w.fs ∧ w'.dirs = w.dirs := by
  rcases pairBody_cases h with
    ⟨e', _, _, hfs, hdirs, _⟩ | ⟨_, _, hfs, hdirs, _⟩ | ⟨e', _, _, _, hfs, hdirs, _⟩ |
    ⟨info, w₂, w₃, w₄, _, _, _, _, _, _, _, _, _, hper⟩
  · exact ⟨hfs, hdirs⟩
  · exact ⟨hfs, hdirs⟩
  · exact ⟨hfs, hdirs⟩
  · obtain ⟨w'', rest, hrun, _⟩ := persist_loop_ok p r info w₄
    rw [hrun] at hper
    injection hper with h1 _
    exact Except.noConfusion h1

theorem main_first_pair_err {s : Service} {args : Args} {w w₁ : World}
    {p r : String} {ps rs : List String} {e : Halt}
    (hp : pySplitComma args.project = p :: ps)
    (hr : pySplitComma args.region = r :: rs)
    (hb : pairBody s args.verbose p r w = (Except.error e, w₁)) :
    main' s args w = (Except.error e, w₁) := by
  have hinner : forPy (r :: rs) (fun region => pairBody s args.verbose p region) w =
      (Except.error e, w₁) := forPy_cons_err hb
  have houter : forPy (p :: ps) (fun project_id => forPy (r :: rs)
      (fun region => pairBody s args.verbose project_id region)) w =
      (Except.error e, w₁) := forPy_cons_err hinner
  rw [main_run, hp, hr]
  exact houter

theorem checkRegionLoop_iff (r : String) (items : List Json)
    (hnames : ∀ it ∈ items, ∃ ifs, it = Json.obj ifs ∧ ∃ nv, dictGet ifs "name" = some nv) :
    ∃ b, checkRegionLoop items r = Except.ok b ∧
      (b = true ↔ ∃ ifs, Json.obj ifs ∈ items ∧ dictGet ifs "name" = some (Json.str r)) := by
  induction items with
  | nil => exact ⟨false, rfl, by simp⟩
  | cons it rest ih =>
    obtain ⟨ifs, rfl, nv, hnv⟩ := hnames it (List.mem_cons_self it rest)
    obtain ⟨b', hb', hiff'⟩ := ih (fun it' h' => hnames it' (List.mem_cons_of_mem _ h'))
    have hget : getItemE (Json.obj ifs) "name" = Except.ok nv := by
      simp [getItemE, hnv]
    cases nv
    case str sname =>
      by_cases hs : sname = r
      · refine ⟨true, by simp [checkRegionLoop, hget, hs], ?_⟩
        exact ⟨fun _ => ⟨ifs, List.mem_cons_self _ _, by rw [hnv, hs]⟩, fun _ => rfl⟩
      · refine ⟨b', by simp [checkRegionLoop, hget, hs, hb'], ?_⟩
        rw [hiff']
        constructor
        · rintro ⟨ifs0, hmem, hname⟩
          exact ⟨ifs0, List.mem_cons_of_mem _ hmem, hname⟩
        · rintro ⟨ifs0, hmem, hname⟩
          rcases List.mem_cons.mp hmem with heq | hmem'
          · injection heq with hifs
            subst hifs
            rw [hnv] at hname
            injection hname with h1
            injection h1 with h2
            exact absurd h2 hs
          · exact ⟨ifs0, hmem', hname⟩
    all_goals
      refine ⟨b', by simp [checkRegionLoop, hget, hb'], ?_⟩
      rw [hiff']
      constructor
      · rintro ⟨ifs0, hmem, hname⟩
        exact ⟨ifs0, List.mem_cons_of_mem _ hmem, hname⟩
      · rintro ⟨ifs0, hmem, hname⟩
        rcases List.mem_cons.mp hmem with heq | hmem'
        · injection heq with hifs
          subst hifs
          rw [hnv] at hname
          exact absurd hname (by simp)
        · exact ⟨ifs0, hmem', hname⟩

theorem crValue_of {s : Service} {p r : String} {flds : List (String × Json)}
    {items : List Json}
    (hsvc : s (ApiCall.regionsList p) = Except.ok (Json.obj flds))
    (hitems : dictGet flds "items" = some (Json.arr items)) :
    crValue s p r = checkRegionLoop items r := by
  simp [crValue, hsvc, regionScan, getItemE, hitems]

theorem crValue_missing_items {s : Service} {p r : String} {flds : List (String × Json)}
    (hsvc : s (ApiCall.regionsList p) = Except.ok (Json.obj flds))
    (hnone : dictGet flds "items" = none) :
    crValue s p r = Except.error (Halt.exc ("KeyError: " ++ "items")) := by
  simp [crValue, hsvc, regionScan, getItemE, hnone]

theorem outputFile_inj (p r : String) {k₁ k₂ : String}
    (h : outputFile p r k₁ = outputFile p r k₂) : k₁ = k₂ := by
  have hd := congrArg String.data h
  simp only [outputFile, output_directory, String.data_append, List.append_assoc,
    List.append_cancel_left_eq, List.append_cancel_right_eq] at hd
  exact String.ext hd

theorem outputFile_ne_outputdir (p r k : String) :
    outputFile p r k ≠ output_directory := by
  intro h
  have hlen := congrArg String.length h
  have e1 : String.length "output" = 6 := rfl
  have e2 : String.length "/" = 1 := rfl
  have e3 : String.length "_" = 1 := rfl
  have e4 : String.length ".json" = 5 := rfl
  simp only [outputFile, output_directory, String.length_append, e1, e2, e3, e4] at hlen
  omega

/-- The empty initial world: no files, no directories, blank console. -/
def w0 : World := { fs := [], dirs := [], stdout := [], calls := [] }

/-- A concrete client whose region listing contains exactly one region named
r1 for every project, and which answers every list call with an empty
object. -/
def coopService : Service := fun c =>
  match c with
  | ApiCall.regionsList _ =>
      Except.ok (Json.obj [("items", Json.arr [Json.obj [("name", Json.str "r1")]])])
  | _ => Except.ok (Json.obj [])

/-- A concrete client whose region listing contains only us-central1. -/
def badService : Service := fun c =>
  match c with
  | ApiCall.regionsList _ =>
      Except.ok (Json.obj [("items", Json.arr [Json.obj [("name", Json.str "us-central1")]])])
  | _ => Except.ok (Json.obj [])

theorem coop_pairBody_run (v : Bool) (pid : String) (w : World) :
    ∃ w', pairBody coopService v pid "r1" w = (Except.ok (), w') ∧
      w'.calls = w.calls ++ ApiCall.regionsList pid :: nineCalls pid "r1" := by
  have hcrv : crValue coopService pid "r1" = Except.ok true := rfl
  rcases pairBody_cases (show pairBody coopService v pid "r1" w =
      ((pairBody coopService v pid "r1" w).1, (pairBody coopService v pid "r1" w).2) from rfl) with
    ⟨e, hcv, _⟩ | ⟨hcv, _⟩ | ⟨e, hcv, hg, _⟩ |
    ⟨info, w₂, w₃, w₄, hcv, hg, hkeys, hf, hd, hs, hcalls, hw₃, hw₄, hper⟩
  · rw [hcrv] at hcv
    exact Except.noConfusion hcv
  · rw [hcrv] at hcv
    injection hcv with hb
    exact Bool.noConfusion hb
  · rw [gni_run_ok rfl rfl rfl rfl rfl rfl rfl rfl rfl _] at hg
    injection hg with hg1 _
    exact Except.noConfusion hg1
  · obtain ⟨w'', rest, hrun, hdirsP, hcallsP, _⟩ := persist_loop_ok pid "r1" info w₄
    rw [hrun] at hper
    injection hper with hout hw'
    have hc4 : w₄.calls = w₃.calls := by rw [hw₄]; split <;> rfl
    have hc3 : w₃.calls = w₂.calls := by rw [hw₃]; split <;> rfl
    refine ⟨(pairBody coopService v pid "r1" w).2, ?_, ?_⟩
    · exact (show pairBody coopService v pid "r1" w =
        ((pairBody coopService v pid "r1" w).1, (pairBody coopService v pid "r1" w).2) from rfl).trans
        (by rw [← hout])
    · rw [← hw', hcallsP, hc4, hc3, hcalls]

theorem coop_loop_calls (v : Bool) (pids : List String) : ∀ w : World,
    ∃ t, (forPy pids (fun pid => forPy ["r1"]
        (fun reg => pairBody coopService v pid reg)) w).2.calls = w.calls ++ t := by
  induction pids with
  | nil =>
    intro w
    refine ⟨[], ?_⟩
    rw [forPy_nil, run_pure]
    simp
  | cons a rest ih =>
    intro w
    obtain ⟨w₁, hrun₁, hcalls₁⟩ := coop_pairBody_run v a w
    have hin : forPy ["r1"] (fun reg => pairBody coopService v a reg) w =
        (Except.ok (), w₁) := by
      rw [forPy_cons_ok hrun₁]
      rfl
    obtain ⟨t, ht⟩ := ih w₁
    refine ⟨(ApiCall.regionsList a :: nineCalls a "r1") ++ t, ?_⟩
    rw [@forPy_cons_ok String a rest
      (fun pid => forPy ["r1"] (fun reg => pairBody coopService v pid reg)) w w₁ () hin,
      ht, hcalls₁]
    simp [List.append_assoc]

theorem coop_loop_mem (v : Bool) (pids : List String) : ∀ (w : World) (pid : String),
    pid ∈ pids → ApiCall.regionsList pid ∈
      ((forPy pids (fun pid => forPy ["r1"]
        (fun reg => pairBody coopService v pid reg)) w).2).calls := by
  induction pids with
  | nil => intro w pid hmem; exact absurd hmem (List.not_mem_nil pid)
  | cons a rest ih =>
    intro w pid hmem
    obtain ⟨w₁, hrun₁, hcalls₁⟩ := coop_pairBody_run v a w
    have hin : forPy ["r1"] (fun reg => pairBody coopService v a reg) w =
        (Except.ok (), w₁) := by
      rw [forPy_cons_ok hrun₁]
      rfl
    rw [@forPy_cons_ok String a rest
      (fun pid => forPy ["r1"] (fun reg => pairBody coopService v pid reg)) w w₁ () hin]
    rcases List.mem_cons.mp hmem with heq | hmem'
    · subst heq
      obtain ⟨t, ht⟩ := coop_loop_calls v rest w₁
      rw [ht]
      refine List.mem_append_left _ ?_
      rw [hcalls₁]
      exact List.mem_append_right _ (List.mem_cons_self _ _)
    · exact ih w₁ pid hmem'

/-! ### Claim theorems -/

/-- C1 (amended): for every successfully collected pair, the NetworkInfo
record contains exactly the nine fixed resource keys plus project and
region - eleven keys, fixed, in the same order for every pair; no key is
added, removed or renamed. -/
theorem network_info_keys_eleven {s : Service} {p r : String} {w w' : World}
    {info : List (String × Json)}
    (h : get_network_info s p r w = (Except.ok info, w')) :
    info.map Prod.fst = niKeys ∧ niKeys.length = 11 :=
  ⟨((gni_cases h).2 info rfl).1, rfl⟩

/-- C1 counterexample: at a concrete client and pair the record has eleven
keys in total, not the twelve that ten resource keys plus project and
region would give. -/
theorem network_info_keys_cex :
    Except.map (List.map Prod.fst) (get_network_info coopService "p" "r" w0).1 =
      Except.ok niKeys ∧ niKeys.length = 11 ∧ ¬ niKeys.length = 12 :=
  ⟨rfl, rfl, by decide⟩

/-- C1 witness: the amended claim instantiated at a concrete client. -/
theorem network_info_keys_eleven_witness :
    List.map Prod.fst [("project", Json.str "pw"), ("region", Json.str "rw"),
      ("vpcs", Json.obj []), ("subnetworks", Json.obj []), ("routes", Json.obj []),
      ("interconnects", Json.obj []), ("lan_interfaces", Json.obj []),
      ("vpn_gateways", Json.obj []), ("external_gateways", Json.obj []),
      ("vpn_tunnels", Json.obj []), ("routers", Json.obj [])] = niKeys ∧
    niKeys.length = 11 :=
  network_info_keys_eleven (show get_network_info coopService "pw" "rw" w0 =
    (Except.ok [("project", Json.str "pw"), ("region", Json.str "rw"),
      ("vpcs", Json.obj []), ("subnetworks", Json.obj []), ("routes", Json.obj []),
      ("interconnects", Json.obj []), ("lan_interfaces", Json.obj []),
      ("vpn_gateways", Json.obj []), ("external_gateways", Json.obj []),
      ("vpn_tunnels", Json.obj []), ("routers", Json.obj [])],
     (get_network_info coopService "pw" "rw" w0).2) from rfl)

/-- C5 (amended): the collector performs nine sequential list calls, in
source order, scoped to the project alone for the global resources
(networks, routes, interconnects, external VPN gateways) and to the
(project, region) pair for the regional ones (subnetworks, region backend
services, VPN gateways, VPN tunnels, routers), as recorded by nineCalls. -/
theorem collector_nine_calls {s : Service} {p r : String} {w w' : World}
    {info : List (String × Json)}
    (h : get_network_info s p r w = (Except.ok info, w')) :
    w'.calls = w.calls ++ nineCalls p r ∧ (nineCalls p r).length = 9 :=
  ⟨((gni_cases h).2 info rfl).2, rfl⟩

/-- C5 counterexample: a successful collection issues nine list calls, not
ten. -/
theorem collector_nine_calls_cex :
    ((get_network_info coopService "p" "r" w0).2).calls.length = 9 ∧
    ¬ ((get_network_info coopService "p" "r" w0).2).calls.length = 10 :=
  ⟨rfl, by decide⟩

/-- C5 witness: the amended claim instantiated at a concrete client. -/
theorem collector_nine_calls_witness :
    ((get_network_info coopService "pw2" "rw2" w0).2).calls =
      w0.calls ++ nineCalls "pw2" "rw2" ∧ (nineCalls "pw2" "rw2").length = 9 :=
  collector_nine_calls (show get_network_info coopService "pw2" "rw2" w0 =
    (Except.ok [("project", Json.str "pw2"), ("region", Json.str "rw2"),
      ("vpcs", Json.obj []), ("subnetworks", Json.obj []), ("routes", Json.obj []),
      ("interconnects", Json.obj []), ("lan_interfaces", Json.obj []),
      ("vpn_gateways", Json.obj []), ("external_gateways", Json.obj []),
      ("vpn_tunnels", Json.obj []), ("routers", Json.obj [])],
     (get_network_info coopService "pw2" "rw2" w0).2) from rfl)

/-- Core lemma for the persister: a successful pair over fresh paths
appends exactly one file per record key, in record order. -/
theorem pairBody_fresh_core {s : Service} {v : Bool} {p r : String}
    {w w' : World}
    (h : pairBody s v p r w = (Except.ok (), w'))
    (hfresh : ∀ k ∈ niKeys, lookupFile w.fs (outputFile p r k) = none ∧
      outputFile p r k ∉ w.dirs) :
    w'.fs.map Prod.fst = w.fs.map Prod.fst ++ niKeys.map (outputFile p r) := by
  rcases pairBody_cases h with
    ⟨e, _, hout, _⟩ | ⟨_, hout, _⟩ | ⟨e, _, _, hout, _⟩ |
    ⟨info, w₂, w₃, w₄, _, hg, hkeys, hf, hd, hs, hcalls, hw₃, hw₄, hper⟩
  · exact Except.noConfusion hout
  · exact Except.noConfusion hout
  · exact Except.noConfusion hout
  · have hw₃fs : w₃.fs = w.fs := by rw [hw₃]; split <;> simp [hf]
    have hw₃dirs : w₃.dirs = w.dirs := by rw [hw₃]; split <;> simp [hd]
    have hw₄fs : w₄.fs = w.fs := by rw [hw₄]; split <;> simp [hw₃fs]
    have hw₄dirs : w₄.dirs = w.dirs ∨ w₄.dirs = w.dirs ++ [output_directory] := by
      rw [hw₄]; split
      · exact Or.inl hw₃dirs
      · right; simp [hw₃dirs]
    have hmemkeys : ∀ kv ∈ info, kv.1 ∈ niKeys := by
      intro kv hkv
      rw [← hkeys]
      exact List.mem_map_of_mem Prod.fst hkv
    have hfresh4 : ∀ kv ∈ info, lookupFile w₄.fs (outputFile p r kv.1) = none ∧
        outputFile p r kv.1 ∉ w₄.dirs := by
      intro kv hkv
      obtain ⟨hn, hnd⟩ := hfresh kv.1 (hmemkeys kv hkv)
      refine ⟨by rw [hw₄fs]; exact hn, ?_⟩
      rcases hw₄dirs with hq | hq
      · rw [hq]; exact hnd
      · rw [hq]
        intro hmem
        rcases List.mem_append.mp hmem with hmem1 | hmem2
        · exact hnd hmem1
        · exact outputFile_ne_outputdir p r kv.1 (List.mem_singleton.mp hmem2)
    have hnodup : (info.map fun kv => outputFile p r kv.1).Nodup := by
      have heq : (info.map fun kv => outputFile p r kv.1) =
          niKeys.map (outputFile p r) := by
        rw [← hkeys, List.map_map]
        rfl
      rw [heq]
      refine List.Nodup.map ?_ (by decide)
      intro a b hab
      exact outputFile_inj p r hab
    rw [persist_loop_fresh p r info w₄ hfresh4 hnodup] at hper
    injection hper with _ hw'
    rw [← hw']
    show (w₄.fs ++ info.map (fun kv => (outputFile p r kv.1, Json.dumps kv.2))).map Prod.fst = _
    rw [List.map_append, hw₄fs, ← hkeys, List.map_map, List.map_map]
    rfl

/-- C2 (amended): a successfully processed pair writes exactly eleven
files, one for every key of the NetworkInfo record - the nine resource keys
and also project and region - each named output/{project}_{region}_{key}.json,
provided none of those files existed before. -/
theorem persist_writes_eleven_files {s : Service} {v : Bool} {p r : String}
    {w w' : World}
    (h : pairBody s v p r w = (Except.ok (), w'))
    (hfresh : ∀ k ∈ niKeys, lookupFile w.fs (outputFile p r k) = none ∧
      outputFile p r k ∉ w.dirs) :
    w'.fs.map Prod.fst = w.fs.map Prod.fst ++ niKeys.map (outputFile p r) :=
  pairBody_fresh_core h hfresh

/-- C2 counterexample: a concrete successfully processed pair writes eleven
files, among them output/p_r1_project.json - a file for the key project,
which is not a resource key - so "exactly ten files, one per resource key
and none for any other key" is false. -/
theorem persist_files_cex :
    ∃ w', pairBody coopService false "p" "r1" w0 = (Except.ok (), w') ∧
      w'.fs.map Prod.fst = niKeys.map (outputFile "p" "r1") ∧
      "output/p_r1_project.json" ∈ w'.fs.map Prod.fst ∧
      ¬ (w'.fs.map Prod.fst).length = 10 := by
  obtain ⟨w', hrun, _⟩ := coop_pairBody_run false "p" w0
  have hfs := pairBody_fresh_core hrun (by decide)
  refine ⟨w', hrun, ?_, ?_, ?_⟩
  · rw [hfs]; rfl
  · rw [hfs]; decide
  · rw [hfs]; decide

/-- C2 witness: the amended claim instantiated at a concrete client over an
empty filesystem. -/
theorem persist_writes_eleven_files_witness :
    ∃ w', pairBody coopService false "pc" "r1" w0 = (Except.ok (), w') ∧
      w'.fs.map Prod.fst = w0.fs.map Prod.fst ++ niKeys.map (outputFile "pc" "r1") := by
  obtain ⟨w', hrun, _⟩ := coop_pairBody_run false "pc" w0
  exact ⟨w', hrun, persist_writes_eleven_files hrun (by decide)⟩

/-- C3: when the first processed (project, region) pair has a region that
the scan of the project's region listing does not accept, the program
prints "The region {region} is not valid.", terminates with exit status 1,
and writes no files and creates no directories - neither for that pair nor
for any later one. -/
theorem invalid_region_exits_one {s : Service} {args : Args} {w : World}
    {p r : String} {ps rs : List String} {flds : List (String × Json)}
    {items : List Json}
    (hp : pySplitComma args.project = p :: ps)
    (hr : pySplitComma args.region = r :: rs)
    (hsvc : s (ApiCall.regionsList p) = Except.ok (Json.obj flds))
    (hitems : dictGet flds "items" = some (Json.arr items))
    (hscan : checkRegionLoop items r = Except.ok false) :
    ∃ w₁, main' s args w = (Except.error (Halt.exitCode 1), w₁) ∧
      w₁.fs = w.fs ∧ w₁.dirs = w.dirs ∧
      w₁.stdout = w.stdout ++ ["The region " ++ r ++ " is not valid."] ∧
      w₁.calls = w.calls ++ [ApiCall.regionsList p] := by
  have hcv : crValue s p r = Except.ok false := (crValue_of hsvc hitems).trans hscan
  rcases pairBody_cases (show pairBody s args.verbose p r w =
      ((pairBody s args.verbose p r w).1, (pairBody s args.verbose p r w).2) from rfl) with
    ⟨e, hcv', _⟩ | ⟨hcv', hout, hfs, hdirs, hstdout, hcalls⟩ | ⟨e, hcv', _⟩ |
    ⟨info, w₂, w₃, w₄, hcv', _⟩
  · rw [hcv] at hcv'
    exact Except.noConfusion hcv'
  · have hb : pairBody s args.verbose p r w =
        (Except.error (Halt.exitCode 1), (pairBody s args.verbose p r w).2) :=
      (show pairBody s args.verbose p r w =
        ((pairBody s args.verbose p r w).1, (pairBody s args.verbose p r w).2) from rfl).trans
        (by rw [← hout])
    exact ⟨(pairBody s args.verbose p r w).2, main_first_pair_err hp hr hb,
      hfs, hdirs, hstdout, hcalls⟩
  · rw [hcv] at hcv'
    injection hcv' with hb
    exact Bool.noConfusion hb
  · rw [hcv] at hcv'
    injection hcv' with hb
    exact Bool.noConfusion hb

/-- Concrete arguments matching the failure scenario of the specification. -/
def argsB : Args := { project := "demo-proj", region := "moon-base1", verbose := false }

/-- C3 witness: the claim applied to a concrete client whose region listing
holds only us-central1 and to the request for moon-base1. -/
theorem invalid_region_exits_one_witness :
    ∃ w₁, main' badService argsB w0 = (Except.error (Halt.exitCode 1), w₁) ∧
      w₁.fs = w0.fs ∧ w₁.dirs = w0.dirs ∧
      w₁.stdout = w0.stdout ++ ["The region " ++ "moon-base1" ++ " is not valid."] ∧
      w₁.calls = w0.calls ++ [ApiCall.regionsList "demo-proj"] :=
  invalid_region_exits_one rfl rfl rfl rfl rfl

/-- C4: a file that already exists is never modified by a run - its content
is preserved byte for byte, so a second run over the same arguments leaves
every first-run file unchanged - and whenever the persister reaches an
already existing output path it only prints the "already exists" notice. -/
theorem existing_files_preserved :
    (∀ (s : Service) (args : Args) (w : World) (q c : String),
      lookupFile w.fs q = some c →
      lookupFile ((main' s args w).2).fs q = some c) ∧
    (∀ (project_id region : String) (kv : String × Json) (w : World),
      (lookupFile w.fs (outputFile project_id region kv.1)).isSome = true →
      persistStep project_id region kv w = (Except.ok (),
        { w with stdout := w.stdout ++ ["File " ++ outputFile project_id region kv.1 ++ " already exists."] })) := by
  constructor
  · intro s args w q c hq
    exact main_fs_keep s args w hq
  · intro project_id region kv w hsome
    exact persistStep_skip (by simp [pathExistsB, hsome])

/-- A world already holding an unrelated file. -/
def wtexist : World := { fs := [("keep.json", "old")], dirs := [], stdout := [], calls := [] }

/-- A world already holding the output file for the key vpcs. -/
def wskip : World :=
  { fs := [(outputFile "p" "r1" "vpcs", "old")], dirs := [], stdout := [], calls := [] }

/-- C4 witness: both parts of the claim at concrete inputs. -/
theorem existing_files_preserved_witness :
    lookupFile ((main' coopService args2 wtexist).2).fs "keep.json" = some "old" ∧
    persistStep "p" "r1" ("vpcs", Json.obj []) wskip = (Except.ok (),
      { wskip with stdout := wskip.stdout ++ ["File " ++ outputFile "p" "r1" "vpcs" ++ " already exists."] }) :=
  ⟨existing_files_preserved.1 coopService args2 wtexist "keep.json" "old" rfl,
   existing_files_preserved.2 "p" "r1" ("vpcs", Json.obj []) wskip rfl⟩

/-- C6: on a well-formed single-page region listing - an items array whose
entries are objects carrying a name - check_region returns a boolean after
exactly one listing call, and it returns true exactly when some entry's
name equals the requested region. -/
theorem check_region_iff_member {s : Service} {p r : String} {w : World}
    {flds : List (String × Json)} {items : List Json}
    (hsvc : s (ApiCall.regionsList p) = Except.ok (Json.obj flds))
    (hitems : dictGet flds "items" = some (Json.arr items))
    (hnames : ∀ it ∈ items, ∃ ifs, it = Json.obj ifs ∧ ∃ nv, dictGet ifs "name" = some nv) :
    ∃ b, check_region s p r w = (Except.ok b, addCall w (ApiCall.regionsList p)) ∧
      (b = true ↔ ∃ ifs, Json.obj ifs ∈ items ∧ dictGet ifs "name" = some (Json.str r)) := by
  obtain ⟨b, hb, hiff⟩ := checkRegionLoop_iff r items hnames
  refine ⟨b, ?_, hiff⟩
  rw [check_region_run2, crValue_of hsvc hitems, hb]

/-- C6 witness: the claim applied to a concrete listing containing r1. -/
theorem check_region_iff_member_witness :
    ∃ b, check_region coopService "pw6" "r1" w0 =
        (Except.ok b, addCall w0 (ApiCall.regionsList "pw6")) ∧
      (b = true ↔ ∃ ifs, Json.obj ifs ∈ [Json.obj [("name", Json.str "r1")]] ∧
        dictGet ifs "name" = some (Json.str "r1")) :=
  check_region_iff_member rfl rfl (by
    intro it hit
    rw [List.mem_singleton] at hit
    subst hit
    exact ⟨[("name", Json.str "r1")], rfl, Json.str "r1", rfl⟩)

/-- C8: when the region-listing response has no items key, check_region
raises a KeyError instead of returning a boolean; a boolean is only
guaranteed when items is present. -/
theorem check_region_missing_items_raises {s : Service} {p r : String} {w : World}
    {flds : List (String × Json)}
    (hsvc : s (ApiCall.regionsList p) = Except.ok (Json.obj flds))
    (hnone : dictGet flds "items" = none) :
    check_region s p r w = (Except.error (Halt.exc ("KeyError: " ++ "items")),
      addCall w (ApiCall.regionsList p)) := by
  rw [check_region_run2, crValue_missing_items hsvc hnone]

/-- A client whose every response is an empty object, as for a project with
an empty region listing. -/
def noItemsService : Service := fun _ => Except.ok (Json.obj [])

/-- C8 witness: the claim applied to a listing without items. -/
theorem check_region_missing_items_raises_witness :
    check_region noItemsService "pe" "re" w0 =
      (Except.error (Halt.exc ("KeyError: " ++ "items")),
       addCall w0 (ApiCall.regionsList "pe")) :=
  check_region_missing_items_raises rfl rfl

/-- C9: the output directory is created only after region validation and
resource collection both succeed: a pair iteration that stops with an error
leaves files and directories exactly as they were, and when the first
processed pair stops with an error the whole program stops there with that
error, so the filesystem is untouched - not even the output directory is
created. -/
theorem output_dir_only_after_success :
    (∀ (s : Service) (v : Bool) (p r : String) (w w' : World) (e : Halt),
      pairBody s v p r w = (Except.error e, w') →
      w'.fs = w.fs ∧ w'.dirs = w.dirs) ∧
    (∀ (s : Service) (args : Args) (w w₁ : World) (p r : String)
      (ps rs : List String) (e : Halt),
      pySplitComma args.project = p :: ps →
      pySplitComma args.region = r :: rs →
      pairBody s args.verbose p r w = (Except.error e, w₁) →
      main' s args w = (Except.error e, w₁)) :=
  ⟨fun _ _ _ _ _ _ _ h => pairBody_err_frame h,
   fun _ _ _ _ _ _ _ _ _ hp hr hb => main_first_pair_err hp hr hb⟩

/-- C9 witness: both parts at a concrete failing first pair. -/
theorem output_dir_only_after_success_witness :
    ∃ w₁, pairBody badService false "demo-proj" "moon-base1" w0 =
        (Except.error (Halt.exitCode 1), w₁) ∧
      w₁.fs = w0.fs ∧ w₁.dirs = w0.dirs ∧
      main' badService argsB w0 = (Except.error (Halt.exitCode 1), w₁) := by
  have hcv : crValue badService "demo-proj" "moon-base1" = Except.ok false := rfl
  rcases pairBody_cases (show pairBody badService false "demo-proj" "moon-base1" w0 =
      ((pairBody badService false "demo-proj" "moon-base1" w0).1,
       (pairBody badService false "demo-proj" "moon-base1" w0).2) from rfl) with
    ⟨e, hcv', _⟩ | ⟨hcv', hout, _⟩ | ⟨e, hcv', _⟩ | ⟨info, w₂, w₃, w₄, hcv', _⟩
  · rw [hcv] at hcv'
    exact Except.noConfusion hcv'
  · have hb : pairBody badService false "demo-proj" "moon-base1" w0 =
        (Except.error (Halt.exitCode 1),
         (pairBody badService false "demo-proj" "moon-base1" w0).2) :=
      (show pairBody badService false "demo-proj" "moon-base1" w0 =
        ((pairBody badService false "demo-proj" "moon-base1" w0).1,
         (pairBody badService false "demo-proj" "moon-base1" w0).2) from rfl).trans
        (by rw [← hout])
    obtain ⟨hfs, hdirs⟩ :=
      output_dir_only_after_success.1 badService false "demo-proj" "moon-base1" w0 _ _ hb
    exact ⟨_, hb, hfs, hdirs,
      output_dir_only_after_success.2 badService argsB w0 _ "demo-proj" "moon-base1"
        [] [] _ rfl rfl hb⟩
  · rw [hcv] at hcv'
    injection hcv' with hb
    exact Bool.noConfusion hb
  · rw [hcv] at hcv'
    injection hcv' with hb
    exact Bool.noConfusion hb

/-- C10: the project and region arguments are split on every comma with no
trimming and no filtering of empty tokens - "a,,b" splits into a, the empty
string, and b - and every element of the split project list, the empty
string included, is passed on to region validation, as witnessed by its
regions-list call in the trace. -/
theorem split_keeps_empty_strings :
    (∀ (args : Args) (w : World) (pid : String),
      pySplitComma args.region = ["r1"] →
      pid ∈ pySplitComma args.project →
      ApiCall.regionsList pid ∈ ((main' coopService args w).2).calls) ∧
    pySplitComma "a,,b" = ["a", "", "b"] := by
  constructor
  · intro args w pid hreg hmem
    rw [main_run, hreg]
    exact coop_loop_mem args.verbose (pySplitComma args.project) w pid hmem
  · rfl

/-- Concrete arguments with consecutive commas in the project list. -/
def args10 : Args := { project := "a,,b", region := "r1", verbose := false }

/-- C10 witness: the empty project token reaches region validation. -/
theorem split_keeps_empty_strings_witness :
    ApiCall.regionsList "" ∈ ((main' coopService args10 w0).2).calls :=
  split_keeps_empty_strings.1 args10 w0 "" rfl (by decide)

/-- C7 (amended): with verbose set, a successfully processed pair prints,
before any persister notice, one block per record key - the nine resource
keys plus project and region, eleven in all, each key exactly once, in
record order, each followed by its serialized value and a delimiter line -
and every remaining console line of the pair is an "already exists"
notice. -/
theorem verbose_prints_each_key_once {s : Service} {p r : String} {w w' : World}
    (h : pairBody s true p r w = (Except.ok (), w')) :
    ∃ info rest, info.map Prod.fst = niKeys ∧ niKeys.Nodup ∧
      w'.stdout = w.stdout ++ vBlock info ++ rest ∧
      ∀ line ∈ rest, ∃ f, line = "File " ++ f ++ " already exists." := by
  rcases pairBody_cases h with
    ⟨e, _, hout, _⟩ | ⟨_, hout, _⟩ | ⟨e, _, _, hout, _⟩ |
    ⟨info, w₂, w₃, w₄, _, hg, hkeys, hf, hd, hs, hcalls, hw₃, hw₄, hper⟩
  · exact Except.noConfusion hout
  · exact Except.noConfusion hout
  · exact Except.noConfusion hout
  · obtain ⟨w'', rest, hrun, _, _, hstd'', hnotice⟩ := persist_loop_ok p r info w₄
    rw [hrun] at hper
    injection hper with _ hw'
    have hw₃s : w₃.stdout = w.stdout ++ vBlock info := by
      rw [hw₃, if_pos rfl]
      show w₂.stdout ++ vBlock info = w.stdout ++ vBlock info
      rw [hs]
    have hw₄s : w₄.stdout = w₃.stdout := by
      rw [hw₄]
      split
      · rfl
      · rfl
    refine ⟨info, rest, hkeys, by decide, ?_, hnotice⟩
    rw [← hw', hstd'', hw₄s, hw₃s]

/-- C7 counterexample: a concrete verbose run of one pair prints 33 console
lines - three for each of the eleven record keys - and not the 36 that
twelve keys would give. -/
theorem verbose_key_lines_cex :
    ∃ w', pairBody coopService true "p7" "r1" w0 = (Except.ok (), w') ∧
      w'.stdout.length = 33 ∧ ¬ w'.stdout.length = 36 := by
  obtain ⟨w', hrun, _⟩ := coop_pairBody_run true "p7" w0
  refine ⟨w', hrun, ?_⟩
  rcases pairBody_cases hrun with
    ⟨e, _, hout, _⟩ | ⟨_, hout, _⟩ | ⟨e, _, _, hout, _⟩ |
    ⟨info, w₂, w₃, w₄, _, hg, hkeys, hf, hd, hs, hcalls, hw₃, hw₄, hper⟩
  · exact Except.noConfusion hout
  · exact Except.noConfusion hout
  · exact Except.noConfusion hout
  · rw [gni_run_ok rfl rfl rfl rfl rfl rfl rfl rfl rfl] at hg
    injection hg with hg1 hg2
    injection hg1 with hrec
    subst hrec
    have hw₃fs : w₃.fs = ([] : List (String × String)) := by
      rw [hw₃, if_pos rfl]
      show w₂.fs = _
      rw [hf]
      rfl
    have hw₃dirs : w₃.dirs = ([] : List String) := by
      rw [hw₃, if_pos rfl]
      show w₂.dirs = _
      rw [hd]
      rfl
    have hpe : pathExistsB w₃ output_directory = false := by
      simp [pathExistsB, hw₃fs, hw₃dirs, lookupFile]
    have hw₄' : w₄ = { w₃ with dirs := w₃.dirs ++ [output_directory] } := by
      rw [hw₄, if_neg (fun hc => Bool.false_ne_true (hpe ▸ hc))]
    have hw₄fs : w₄.fs = ([] : List (String × String)) := by
      rw [hw₄']
      show w₃.fs = _
      exact hw₃fs
    have hw₄dirs : w₄.dirs = [output_directory] := by
      rw [hw₄']
      show w₃.dirs ++ [output_directory] = _
      rw [hw₃dirs]
      rfl
    have hfr : ∀ kv ∈ [("project", Json.str "p7"), ("region", Json.str "r1"),
        ("vpcs", Json.obj []), ("subnetworks", Json.obj []), ("routes", Json.obj []),
        ("interconnects", Json.obj []), ("lan_interfaces", Json.obj []),
        ("vpn_gateways", Json.obj []), ("external_gateways", Json.obj []),
        ("vpn_tunnels", Json.obj []), ("routers", Json.obj [])],
        lookupFile w₄.fs (outputFile "p7" "r1" kv.1) = none ∧
        outputFile "p7" "r1" kv.1 ∉ w₄.dirs := by
      intro kv _
      refine ⟨by rw [hw₄fs]; rfl, ?_⟩
      rw [hw₄dirs]
      intro hmem
      exact outputFile_ne_outputdir "p7" "r1" kv.1 (List.mem_singleton.mp hmem)
    rw [persist_loop_fresh "p7" "r1" _ w₄ hfr (by decide)] at hper
    injection hper with _ hw'
    have hstd : w'.stdout = w₄.stdout := by
      rw [← hw']
    have h₄std : w₄.stdout = w₃.stdout := by
      rw [hw₄']
    have h₃std : w₃.stdout = w₂.stdout ++ vBlock [("project", Json.str "p7"),
        ("region", Json.str "r1"), ("vpcs", Json.obj []), ("subnetworks", Json.obj []),
        ("routes", Json.obj []), ("interconnects", Json.obj []),
        ("lan_interfaces", Json.obj []), ("vpn_gateways", Json.obj []),
        ("external_gateways", Json.obj []), ("vpn_tunnels", Json.obj []),
        ("routers", Json.obj [])] := by
      rw [hw₃, if_pos rfl]
    rw [hstd, h₄std, h₃std, hs]
    constructor
    · decide
    · decide

/-- C7 witness: the amended claim applied to a concrete verbose run. -/
theorem verbose_prints_each_key_once_witness :
    ∃ w', pairBody coopService true "pv" "r1" w0 = (Except.ok (), w') ∧
      ∃ info rest, info.map Prod.fst = niKeys ∧ niKeys.Nodup ∧
        w'.stdout = w0.stdout ++ vBlock info ++ rest ∧
        ∀ line ∈ rest, ∃ f, line = "File " ++ f ++ " already exists." := by
  obtain ⟨w', hrun, _⟩ := coop_pairBody_run true "pv" w0
  exact ⟨w', hrun, verbose_prints_each_key_once hrun⟩
